import Mathlib

/-!
Shallow embedding of the `min-go-server` repository: a Go HTTP CRUD server
over a MongoDB collection of users (`src/main.go`, api package) together
with the connection manager (`src/db/mongo.go`).

The MongoDB collection is modelled as an association list from ObjectID
values to documents; BSON/JSON dynamic values (`any` in Go, `bson.M`
entries) are modelled by the inductive type `BVal`.  Each HTTP handler
becomes a pure function from the store (and the decoded request data) to
the new store and an HTTP response.  Behaviour of the MongoDB server and
driver that the handlers rely on (ObjectID hex encoding, `$set` update
semantics including the server rejecting an empty `$set` document,
`DeleteOne`, double-`Disconnect` errors) is modelled according to the
documented behaviour of MongoDB and its Go driver.

Conventions:
* machine integers are modelled as `Int`/`Nat` (BSON int32/int64 payloads
  are the mathematical values stored);
* BSON doubles are modelled at integral values (`BVal.f64` carries the
  integer the Go code obtains by the conversion `int(v)`); the claims only
  concern the integer-coercion path;
* timestamps are integer milliseconds since the Unix epoch (the precision
  of the BSON datetime type); Go `time.Time` values are likewise modelled
  at millisecond precision.
-/

namespace MinGo

/-- Dynamic BSON/JSON values, as they appear in `bson.M` / `map[string]any`
in the Go source.  `i32`/`i64` are the BSON integer types, `intv` is an
in-memory Go `int`, `f64` a BSON double (modelled at integral values),
`datetime` a BSON datetime (`primitive.DateTime`, millis since epoch) and
`timeT` an in-memory `time.Time` (truncated to millis). -/
inductive BVal where
  | null
  | str (s : String)
  | i32 (n : Int)
  | i64 (n : Int)
  | intv (n : Int)
  | f64 (n : Int)
  | oidv (n : Nat)
  | datetime (ms : Int)
  | timeT (ms : Int)
  | doc (fields : List (String × BVal))
  | arr (elems : List BVal)

/-- Whether a dynamic value is a string (used to state that a response
field is, or is not, a string). -/
def BVal.isStr : BVal → Bool
  | .str _ => true
  | _ => false

/-- A stored document: the fields of a `bson.M` other than `_id`
(the `_id` is kept as the store key). -/
abbrev Doc := List (String × BVal)

/-- The `users` collection: documents keyed by their ObjectID value
(a 12-byte identifier, modelled as a `Nat` below `16 ^ 24`). -/
abbrev Store := List (Nat × Doc)

/-- First value bound to field `f`, like indexing a `bson.M`. -/
def lookupField : Doc → String → Option BVal
  | [], _ => none
  | (k, v) :: rest, f => if k = f then some v else lookupField rest f

/-- `FindOne` by `_id`: the first document with the given ObjectID. -/
def findDoc : Store → Nat → Option Doc
  | [], _ => none
  | (k, d) :: rest, i => if k = i then some d else findDoc rest i

/- ### ObjectID hex encoding (`primitive.ObjectID.Hex` / `ObjectIDFromHex`) -/

/-- Lowercase hex digit character for `n < 16` (as produced by Go
`hex.EncodeToString`). -/
def hexDigitChar (n : Nat) : Char :=
  if n < 10 then Char.ofNat (48 + n) else Char.ofNat (87 + n)

/-- The `w` base-16 digits of `n`, most significant first (the fixed-width
encoding used for the 24 hex characters of an ObjectID). -/
def natToHexDigits : Nat → Nat → List Nat
  | 0, _ => []
  | w + 1, n => natToHexDigits w (n / 16) ++ [n % 16]

/-- `primitive.ObjectID.Hex`: the 24-character lowercase hex string. -/
def oidHex (n : Nat) : String :=
  String.mk ((natToHexDigits 24 n).map hexDigitChar)

/-- Value of one hex digit character; `none` when the character is not a
hex digit.  Both cases are accepted, as by Go `hex.DecodeString`. -/
def hexDigitVal (c : Char) : Option Nat :=
  if 48 ≤ c.toNat ∧ c.toNat ≤ 57 then some (c.toNat - 48)
  else if 97 ≤ c.toNat ∧ c.toNat ≤ 102 then some (c.toNat - 87)
  else if 65 ≤ c.toNat ∧ c.toNat ≤ 70 then some (c.toNat - 55)
  else none

/-- `primitive.ObjectIDFromHex`: requires exactly 24 hex characters and
decodes them; `none` models the `ErrInvalidHex` error. -/
def fromHex (s : String) : Option Nat :=
  if s.data.length = 24 ∧ s.data.all (fun c => (hexDigitVal c).isSome) then
    some (s.data.foldl (fun acc c => 16 * acc + (hexDigitVal c).getD 0) 0)
  else none

/- ### Proleptic Gregorian calendar and RFC3339 rendering

Models `t.UTC().Format(time.RFC3339)` from the Go standard library for a
`time.Time`/`primitive.DateTime` holding `ms` milliseconds since the Unix
epoch.  Days are converted to a civil date by splitting off 400-year eras
(146097 days, counted from 0000-03-01 so that leap days sit at the end of
every cycle), then centuries, 4-year blocks and years, clamping the two
divisions whose final block is one day longer — the same decomposition
the Go runtime uses in `absDate`. -/

/-- Number of days of a month (1 = January), in a leap or non-leap year. -/
def monthLen (leap : Bool) : Nat → Nat
  | 1 => 31
  | 2 => if leap then 29 else 28
  | 3 => 31
  | 4 => 30
  | 5 => 31
  | 6 => 30
  | 7 => 31
  | 8 => 31
  | 9 => 30
  | 10 => 31
  | 11 => 30
  | 12 => 31
  | _ => 0

/-- Gregorian leap-year rule. -/
def isLeapYear (y : Nat) : Bool :=
  y % 4 = 0 ∧ (y % 100 ≠ 0 ∨ y % 400 = 0)

/-- A civil date. -/
structure Date where
  year : Nat
  month : Nat
  day : Nat

/-- Days into the 400-year era, for `n` = days since 0000-03-01. -/
def doeOf (n : Nat) : Nat := n % 146097

/-- Completed centuries inside the era (the fourth century is one day
longer, hence the clamp to 3). -/
def n100Of (n : Nat) : Nat := min (doeOf n / 36524) 3

/-- Days into the current century. -/
def d2Of (n : Nat) : Nat := doeOf n - 36524 * n100Of n

/-- Completed 4-year blocks inside the century. -/
def n4Of (n : Nat) : Nat := d2Of n / 1461

/-- Days into the current 4-year block. -/
def d3Of (n : Nat) : Nat := d2Of n % 1461

/-- Completed years inside the 4-year block (the fourth year is one day
longer, hence the clamp to 3). -/
def n1Of (n : Nat) : Nat := min (d3Of n / 365) 3

/-- Day of the March-based year, `0` = March 1st, at most `365`. -/
def doyOf (n : Nat) : Nat := d3Of n - 365 * n1Of n

/-- Year of the era, `0..399`. -/
def yoeOf (n : Nat) : Nat := 100 * n100Of n + 4 * n4Of n + n1Of n

/-- March-based month index, `0` = March, ..., `11` = February. -/
def mpOf (n : Nat) : Nat := (5 * doyOf n + 2) / 153

/-- Day of the month, starting at 1. -/
def dayOf (n : Nat) : Nat := doyOf n - (153 * mpOf n + 2) / 5 + 1

/-- Calendar month, January = 1. -/
def monthOf (n : Nat) : Nat := if mpOf n < 10 then mpOf n + 3 else mpOf n - 9

/-- Calendar year (January and February belong to the year after their
March-based year). -/
def yearOf (n : Nat) : Nat :=
  400 * (n / 146097) + yoeOf n + (if monthOf n ≤ 2 then 1 else 0)

/-- Civil date of day `n`, where `n` counts days since 0000-03-01. -/
def civilFromDays (n : Nat) : Date :=
  ⟨yearOf n, monthOf n, dayOf n⟩

/-- Decidable per-day check of the month/day decomposition, verified for
every day of a March-based year: month in range, day at least 1, day at
most the month length (day 365 is exactly February 29th). -/
def calDayCheck (doy : Nat) : Bool :=
  let mp := (5 * doy + 2) / 153
  let day := doy - (153 * mp + 2) / 5 + 1
  let month := if mp < 10 then mp + 3 else mp - 9
  decide (1 ≤ month ∧ month ≤ 12 ∧ 1 ≤ day ∧
    (month = 2 → (day ≤ 28 ∨ (doy = 365 ∧ day = 29))) ∧
    (month ≠ 2 → day ≤ monthLen false month))

/-- Two decimal digits, zero padded. -/
def pad2Chars (n : Nat) : List Char :=
  [Char.ofNat (48 + n / 10 % 10), Char.ofNat (48 + n % 10)]

/-- Four decimal digits, zero padded. -/
def pad4Chars (n : Nat) : List Char :=
  [Char.ofNat (48 + n / 1000 % 10), Char.ofNat (48 + n / 100 % 10),
   Char.ofNat (48 + n / 10 % 10), Char.ofNat (48 + n % 10)]

/-- Year rendering: four zero-padded digits; wider years print all their
digits (and therefore never yield a valid 20-character RFC3339 string). -/
def yearChars (n : Nat) : List Char :=
  if n < 10000 then pad4Chars n else (Nat.repr n).data

/-- `t.UTC().Format(time.RFC3339)` for an instant of `ms` milliseconds
since the Unix epoch: `YYYY-MM-DDThh:mm:ssZ`, seconds floor-truncated.
The epoch is day 719468 counted from 0000-03-01. -/
def formatRFC3339 (ms : Int) : String :=
  let n := (ms.ediv 86400000 + 719468).toNat
  let tod := (ms.emod 86400000).toNat
  let d := civilFromDays n
  let ss := tod / 1000
  String.mk (yearChars d.year ++ '-' :: pad2Chars d.month ++ '-' :: pad2Chars d.day
    ++ 'T' :: pad2Chars (ss / 3600) ++ ':' :: pad2Chars (ss / 60 % 60)
    ++ ':' :: pad2Chars (ss % 60) ++ ['Z'])

/-- Decimal digit character test. -/
def isDigitChar (c : Char) : Bool :=
  decide (48 ≤ c.toNat) && decide (c.toNat ≤ 57)

/-- Value of a decimal digit character. -/
def digitVal (c : Char) : Nat := c.toNat - 48

/-- Validity of a string as an RFC3339 UTC timestamp in the form the
server is specified to produce: `YYYY-MM-DDThh:mm:ssZ` with in-range
month, day (respecting month lengths and leap years), hour, minute and
second. -/
def isRFC3339UTC (s : String) : Bool :=
  match s.data with
  | [y1, y2, y3, y4, c1, m1, m2, c2, d1, d2, ct, h1, h2, c3, n1, n2, c4, s1, s2, cz] =>
    (c1 == '-') && (c2 == '-') && (ct == 'T') && (c3 == ':') && (c4 == ':') && (cz == 'Z') &&
    [y1, y2, y3, y4, m1, m2, d1, d2, h1, h2, n1, n2, s1, s2].all isDigitChar &&
    (let y := 1000 * digitVal y1 + 100 * digitVal y2 + 10 * digitVal y3 + digitVal y4
     let mo := 10 * digitVal m1 + digitVal m2
     let da := 10 * digitVal d1 + digitVal d2
     let hh := 10 * digitVal h1 + digitVal h2
     let mi := 10 * digitVal n1 + digitVal n2
     let sec := 10 * digitVal s1 + digitVal s2
     decide (1 ≤ mo) && decide (mo ≤ 12) && decide (1 ≤ da) &&
     decide (da ≤ monthLen (isLeapYear y) mo) &&
     decide (hh ≤ 23) && decide (mi ≤ 59) && decide (sec ≤ 59))
  | _ => false

/- ### `time.Parse(time.RFC3339, s)`

Inverse of the civil-date conversion plus a parser for the RFC3339
layout `YYYY-MM-DDThh:mm:ss[.fff...](Z|+hh:mm|-hh:mm)`: year of exactly
four digits, mandatory seconds, optional fractional seconds (kept to
millisecond precision, the precision of the model), and a `Z` or numeric
offset.  Go validates month, day (against the month length), hour, minute
and second ranges; this is reproduced below.  The result is milliseconds
since the Unix epoch. -/

/-- Days since the Unix epoch of a civil date (inverse of
`civilFromDays`, Hinnant's `days_from_civil`). -/
def daysFromCivil (y : Nat) (m : Nat) (d : Nat) : Int :=
  let yy : Int := if m ≤ 2 then (y : Int) - 1 else (y : Int)
  let era : Int := yy.fdiv 400
  let yoe : Int := yy - era * 400
  let mp : Int := if 2 < m then (m : Int) - 3 else (m : Int) + 9
  let doy : Int := (153 * mp + 2).fdiv 5 + (d : Int) - 1
  let doe : Int := yoe * 365 + yoe.fdiv 4 - yoe.fdiv 100 + doy
  era * 146097 + doe - 719468

/-- Two decimal digit characters to a number. -/
def twoDigits (a b : Char) : Nat := 10 * digitVal a + digitVal b

/-- Milliseconds encoded by a (nonempty) run of fractional-second digits:
the first three digits, right-padded with zeros (further digits are below
the millisecond precision of the model and are dropped, as the BSON
datetime conversion drops them). -/
def fracMillis (ds : List Char) : Nat :=
  100 * (digitVal (ds.headD '0')) + 10 * (digitVal ((ds.drop 1).headD '0'))
    + digitVal ((ds.drop 2).headD '0')

/-- Trailing timezone of the layout: `Z` or `+hh:mm` / `-hh:mm`, as a
signed offset in minutes. -/
def parseZone : List Char → Option Int
  | ['Z'] => some 0
  | ['+', a, b, ':', c, d] =>
    if [a, b, c, d].all isDigitChar ∧ twoDigits c d ≤ 59 then
      some ((60 * twoDigits a b + twoDigits c d : Nat) : Int)
    else none
  | ['-', a, b, ':', c, d] =>
    if [a, b, c, d].all isDigitChar ∧ twoDigits c d ≤ 59 then
      some (-((60 * twoDigits a b + twoDigits c d : Nat) : Int))
    else none
  | _ => none

/-- Optional fractional seconds followed by the timezone: gives the
fractional milliseconds and the offset in minutes. -/
def parseFracZone (cs : List Char) : Option (Nat × Int) :=
  match cs with
  | '.' :: rest =>
    match rest.span isDigitChar with
    | ([], _) => none
    | (ds, rest2) => (parseZone rest2).map (fun off => (fracMillis ds, off))
  | _ => (parseZone cs).map (fun off => (0, off))

/-- `time.Parse(time.RFC3339, s)`, as milliseconds since the epoch;
`none` models a parse error. -/
def parseRFC3339 (s : String) : Option Int :=
  match s.data with
  | y1 :: y2 :: y3 :: y4 :: '-' :: m1 :: m2 :: '-' :: d1 :: d2 :: 'T' ::
      h1 :: h2 :: ':' :: n1 :: n2 :: ':' :: s1 :: s2 :: rest =>
    if [y1, y2, y3, y4, m1, m2, d1, d2, h1, h2, n1, n2, s1, s2].all isDigitChar then
      let y := 100 * twoDigits y1 y2 + twoDigits y3 y4
      let mo := twoDigits m1 m2
      let da := twoDigits d1 d2
      let hh := twoDigits h1 h2
      let mi := twoDigits n1 n2
      let sec := twoDigits s1 s2
      if 1 ≤ mo ∧ mo ≤ 12 ∧ 1 ≤ da ∧ da ≤ monthLen (isLeapYear y) mo ∧
          hh ≤ 23 ∧ mi ≤ 59 ∧ sec ≤ 59 then
        (parseFracZone rest).map (fun fz =>
          daysFromCivil y mo da * 86400000
            + ((hh * 3600 + mi * 60 + sec) * 1000 + fz.1 : Nat)
            - fz.2 * 60000)
      else none
    else none
  | _ => none

/- ### Response normalization (`getUser` / `listUsers` in src/main.go)

The two handlers contain the same normalization code; it is modelled once
here.  JSON object key order is immaterial (Go marshals maps with sorted
keys); the model keeps insertion order. -/

/-- The `created_at` type switch shared by `getUser` and `listUsers`:
a BSON datetime or an in-memory `time.Time` is rendered as an RFC3339 UTC
string; a legacy nested document whose `$date` field is a string is
re-parsed (and rendered when the parse succeeds, passed through as the
raw string otherwise); every other value is passed through unchanged. -/
def normalizeCreatedAt : BVal → BVal
  | .datetime ms => .str (formatRFC3339 ms)
  | .timeT ms => .str (formatRFC3339 ms)
  | .doc fields =>
    match lookupField fields "$date" with
    | some (.str s) =>
      match parseRFC3339 s with
      | some ms => .str (formatRFC3339 ms)
      | none => .str s
    | _ => .doc fields
  | v => v

/-- The `created_at` encodings the normalization recognizes and renders
as a timestamp: a BSON datetime, an in-memory time value, or a legacy
nested object whose `$date` string parses as RFC3339. -/
def recognizedMillis : BVal → Option Int
  | .datetime ms => some ms
  | .timeT ms => some ms
  | .doc fields =>
    match lookupField fields "$date" with
    | some (.str s) => parseRFC3339 s
    | _ => none
  | _ => none

/-- `name` entry of the response: present exactly when the stored value
is a string (`raw["name"].(string)`). -/
def nameField (d : Doc) : Doc :=
  match lookupField d "name" with
  | some (.str v) => [("name", BVal.str v)]
  | _ => []

/-- `email` entry of the response, as for `name`. -/
def emailField (d : Doc) : Doc :=
  match lookupField d "email" with
  | some (.str v) => [("email", BVal.str v)]
  | _ => []

/-- `age` entry of the response: the if/else-if chain asserting int32,
Go int, then float64, each converted by `int(v)`; other widths (notably
BSON int64) fall through and leave `age` out. -/
def ageField (d : Doc) : Doc :=
  match lookupField d "age" with
  | some (.i32 v) => [("age", BVal.intv v)]
  | some (.intv v) => [("age", BVal.intv v)]
  | some (.f64 v) => [("age", BVal.intv v)]
  | _ => []

/-- `created_at` entry of the response, through `normalizeCreatedAt`. -/
def createdField (d : Doc) : Doc :=
  match lookupField d "created_at" with
  | some v => [("created_at", normalizeCreatedAt v)]
  | none => []

/-- The normalized response object for one stored document: `id` as the
hex string of the ObjectID, then the `name`, `email`, `age` and
`created_at` entries in the order the handlers assign them. -/
def buildUserResp (i : Nat) (d : Doc) : Doc :=
  ("id", BVal.str (oidHex i)) ::
    (nameField d ++ (emailField d ++ (ageField d ++ createdField d)))

/-- Field of a response object (`none` when the body is not an object or
lacks the field). -/
def respField (b : BVal) (k : String) : Option BVal :=
  match b with
  | .doc fields => lookupField fields k
  | _ => none

/- ### HTTP handlers -/

/-- An HTTP response: status, body (a JSON value for `writeJSON`, a plain
string for `http.Error`), and the number of database operations the
handler performed before responding. -/
structure HResp where
  status : Nat
  body : BVal
  dbOps : Nat

/-- `getUser` (GET /users/id): 400 on a malformed id without touching the
database, 404 when no document matches, otherwise 200 with the
normalized document. -/
def getUser (s : Store) (idStr : String) : HResp :=
  match fromHex idStr with
  | none => ⟨400, .str "invalid id", 0⟩
  | some i =>
    match findDoc s i with
    | none => ⟨404, .str "not found", 1⟩
    | some d => ⟨200, .doc (buildUserResp i d), 1⟩

/-- The rows accumulated by the cursor loop of `listUsers`. -/
def listRows (s : Store) : List BVal :=
  s.map (fun p => .doc (buildUserResp p.1 p.2))

/-- `listUsers` (GET /users): 200 with the normalized rows.  The rows are
accumulated in a slice that starts `nil`; `encoding/json` marshals a nil
slice as `null`, so an empty collection yields a `null` body rather than
an empty array. -/
def listUsers (s : Store) : HResp :=
  match listRows s with
  | [] => ⟨200, .null, 1⟩
  | rows => ⟨200, .arr rows, 1⟩

/-- The decoded `User` struct of `createUser`: Go zero values stand for
absent JSON fields (so `""`/`0` are indistinguishable from absent, per
`encoding/json` and the struct `omitempty` tags), and `createdAt = none`
models the zero `time.Time`. -/
structure CreateIn where
  name : String
  email : String
  age : Int
  createdAt : Option Int

/-- How the BSON encoder stores a Go `int`: as int32 when the value fits
in 32 bits, as int64 otherwise. -/
def encodeGoInt (v : Int) : BVal :=
  if -2147483648 ≤ v ∧ v ≤ 2147483647 then .i32 v else .i64 v

/-- The document inserted for a decoded payload: `omitempty` drops
zero-valued fields, and `created_at` (defaulted to the insertion time
`now` when zero) is stored as a BSON datetime. -/
def userToDoc (u : CreateIn) (now : Int) : Doc :=
  (if u.name = "" then [] else [("name", BVal.str u.name)]) ++
  (if u.email = "" then [] else [("email", BVal.str u.email)]) ++
  (if u.age = 0 then [] else [("age", encodeGoInt u.age)]) ++
  [("created_at", BVal.datetime (u.createdAt.getD now))]

/-- `createUser` (POST /users): 400 on an undecodable body (`input =
none`); otherwise the driver assigns the fresh ObjectID `newId`, inserts
the document, and the handler answers 201 with the hex id. -/
def createUser (s : Store) (input : Option CreateIn) (now : Int) (newId : Nat) :
    Store × HResp :=
  match input with
  | none => (s, ⟨400, .str "invalid json body", 0⟩)
  | some u =>
    (s ++ [(newId, userToDoc u now)], ⟨201, .doc [("id", .str (oidHex newId))], 1⟩)

/-- `$set` of a single field: replaces the value in place when the field
exists, appends it otherwise. -/
def setField : Doc → String → BVal → Doc
  | [], f, v => [(f, v)]
  | (k, w) :: rest, f, v =>
    if k = f then (f, v) :: rest else (k, w) :: setField rest f v

/-- `$set` of an update document, field by field. -/
def setFields (d : Doc) (fields : Doc) : Doc :=
  fields.foldl (fun acc kv => setField acc kv.1 kv.2) d

/-- `UpdateByID` with `$set`: rewrites the matching document (if any) and
leaves every other document alone; without upsert an unmatched id is not
an error. -/
def applySet (s : Store) (i : Nat) (fields : Doc) : Store :=
  s.map (fun p => if p.1 = i then (p.1, setFields p.2 fields) else p)

/-- `delete(body, "id")`: the handler strips any `id` field from the
decoded body before writing. -/
def stripId (body : Doc) : Doc :=
  body.filter (fun kv => kv.1 ≠ "id")

/-- `updateUser` (PUT /users/id): 400 on a malformed id or undecodable
body; otherwise `$set` of the remaining fields.  A MongoDB server rejects
an update document whose `$set` operand is empty (error: `$set` is
empty), which the handler surfaces as a 500; with at least one field the
write succeeds — matching zero documents is not an error — and the
handler answers 200 with the hex id. -/
def updateUser (s : Store) (idStr : String) (body : Option Doc) : Store × HResp :=
  match fromHex idStr with
  | none => (s, ⟨400, .str "invalid id", 0⟩)
  | some i =>
    match body with
    | none => (s, ⟨400, .str "invalid json body", 0⟩)
    | some b =>
      match stripId b with
      | [] => (s, ⟨500, .str "update error: empty $set document", 1⟩)
      | fields => (applySet s i fields, ⟨200, .doc [("id", .str (oidHex i))], 1⟩)

/-- `DeleteOne` by `_id`: removes the first matching document; removing
nothing is not an error. -/
def deleteFirst : Store → Nat → Store
  | [], _ => []
  | (k, d) :: rest, i => if k = i then rest else (k, d) :: deleteFirst rest i

/-- `deleteUser` (DELETE /users/id): 400 on a malformed id, otherwise
deletes and answers 200 with the hex id whether or not a document
matched. -/
def deleteUser (s : Store) (idStr : String) : Store × HResp :=
  match fromHex idStr with
  | none => (s, ⟨400, .str "invalid id", 0⟩)
  | some i => (deleteFirst s i, ⟨200, .doc [("id", .str (oidHex i))], 1⟩)

/- ### Connection manager (src/db/mongo.go)

`Connect`/`Disconnect` manage a package-level singleton
`clientInstance`.  Driver behaviour is modelled by a set of open client
handles: dialling opens a fresh handle; `mongo.Client.Disconnect` on a
handle that is no longer open fails (the driver returns its
client-is-disconnected error, from the closed topology). -/

/-- The `MongoClient` struct: the driver client handle (`nil` possible
only for a zero value — `Connect` always sets it) and the selected
database. -/
structure MongoClient where
  client : Option Nat
  db : Option (Nat × String)
deriving DecidableEq

/-- Process-wide state: the driver's open client handles, a counter for
fresh handles, the package-level `clientInstance` singleton, and how many
times the driver actually dialled. -/
structure DBState where
  openClients : List Nat
  nextClient : Nat
  clientInstance : Option MongoClient
  dialCount : Nat
deriving DecidableEq

/-- `db.Connect(uri, dbName)`: returns the cached singleton when one
exists; otherwise dials (outcome `dialOk`), pings (outcome `pingOk`), and
on success caches and returns a fresh client bound to `dbName`. -/
def Connect (st : DBState) (uri dbName : String) (dialOk pingOk : Bool) :
    DBState × Except String MongoClient :=
  match st.clientInstance with
  | some c => (st, .ok c)
  | none =>
    if !dialOk then
      ({st with dialCount := st.dialCount + 1}, .error "failed to connect to MongoDB")
    else
      let h := st.nextClient
      let st1 := {st with nextClient := h + 1,
                          openClients := st.openClients ++ [h],
                          dialCount := st.dialCount + 1}
      if !pingOk then (st1, .error "failed to ping MongoDB")
      else
        let mc : MongoClient := ⟨some h, some (h, dbName)⟩
        ({st1 with clientInstance := some mc}, .ok mc)

/-- `(*MongoClient).Disconnect`: a no-op returning `nil` when the inner
client is `nil`; otherwise calls the driver – closing the handle and
clearing the singleton on success, but propagating the driver's error
(leaving the singleton untouched) when the handle was already closed.
The method never sets `mc.Client` to `nil`, so a second call on the same
value reaches the driver again. -/
def MongoClient.Disconnect (mc : MongoClient) (st : DBState) :
    DBState × Option String :=
  match mc.client with
  | none => (st, none)
  | some h =>
    if h ∈ st.openClients then
      ({st with openClients := st.openClients.erase h, clientInstance := none}, none)
    else
      (st, some "failed to disconnect from MongoDB: client is disconnected")

/-! ## Calendar bounds

The clamped-division decomposition keeps every intermediate quantity in
range; this section establishes the bounds needed to show that the
formatter always emits a well-formed timestamp. -/

theorem doe_le (n : Nat) : doeOf n ≤ 146096 := by unfold doeOf; omega

theorem d2_le (n : Nat) : d2Of n ≤ 36524 := by
  unfold d2Of n100Of doeOf
  rw [Nat.min_def]; split <;> omega

theorem doy_le (n : Nat) : doyOf n ≤ 365 := by
  unfold doyOf n1Of d3Of
  rw [Nat.min_def]; split <;> omega

theorem n4_le (n : Nat) : n4Of n ≤ 24 := by
  have := d2_le n
  unfold n4Of; omega

theorem mp_le (n : Nat) : mpOf n ≤ 11 := by
  have := doy_le n
  unfold mpOf; omega

theorem n100_le (n : Nat) : n100Of n ≤ 3 := Nat.min_le_right _ _

theorem n1_le (n : Nat) : n1Of n ≤ 3 := Nat.min_le_right _ _

theorem yoe_le (n : Nat) : yoeOf n ≤ 399 := by
  have h4 := n4_le n
  have h3 := n100_le n
  have h1 := n1_le n
  unfold yoeOf; omega

theorem d2_eq_top (n : Nat) (h : d2Of n = 36524) : doeOf n = 146096 ∧ n100Of n = 3 := by
  have e : d2Of n = doeOf n - 36524 * n100Of n := rfl
  have em : n100Of n = min (doeOf n / 36524) 3 := rfl
  have := doe_le n
  rw [Nat.min_def] at em
  split at em <;> omega

theorem doy_eq_top (n : Nat) (h : doyOf n = 365) : d3Of n = 1460 ∧ n1Of n = 3 := by
  have hle : d3Of n ≤ 1460 := by unfold d3Of; omega
  have hd : doyOf n = d3Of n - 365 * n1Of n := rfl
  have e : n1Of n = min (d3Of n / 365) 3 := rfl
  rw [Nat.min_def] at e
  split at e <;> omega

/-- Day 365 of a March-based year is only reached in a leap year: the
clamped decomposition places it in year 3 of a 4-year block, and in the
exceptional last day of an era only at year 399, which is divisible by
400 once shifted to the calendar year. -/
theorem leap_of_doy365 (n : Nat) (h : doyOf n = 365) : isLeapYear (yearOf n) = true := by
  obtain ⟨hd3, hn1⟩ := doy_eq_top n h
  have hmp : mpOf n = 11 := by unfold mpOf; rw [h]
  have hmo : monthOf n = 2 := by unfold monthOf; rw [hmp]; decide
  have hy : yearOf n = 400 * (n / 146097) + yoeOf n + 1 := by
    unfold yearOf; rw [hmo]; rw [if_pos (by decide)]
  have hyoe : yoeOf n = 100 * n100Of n + 4 * n4Of n + n1Of n := rfl
  have h4 := n4_le n
  have h3 := n100_le n
  simp only [isLeapYear, decide_eq_true_eq]
  rcases Nat.lt_or_ge (n4Of n) 24 with h24 | h24
  · rw [hy]; omega
  · have hn4 : n4Of n = 24 := by omega
    have hd2 : d2Of n = 36524 := by
      have e1 : n4Of n = d2Of n / 1461 := rfl
      have e2 : d3Of n = d2Of n % 1461 := rfl
      have := d2_le n
      omega
    obtain ⟨hdoe, hn100⟩ := d2_eq_top n hd2
    rw [hy]; omega

/-- Within the supported range the year never exceeds 9999: day 3652364
is 9999-12-31, and later days of era 24 are cut off by the hypothesis. -/
theorem year_le (n : Nat) (hn : n ≤ 3652364) : yearOf n ≤ 9999 := by
  have hyoe := yoe_le n
  have hera : n / 146097 ≤ 24 := by omega
  rcases Nat.lt_or_ge (n / 146097) 24 with h24 | h24
  · unfold yearOf
    split <;> omega
  · have he : n / 146097 = 24 := by omega
    have hdoe : doeOf n ≤ 146036 := by unfold doeOf; omega
    rcases Nat.lt_or_ge (yoeOf n) 399 with h399 | h399
    · unfold yearOf; split <;> omega
    · have hy399 : yoeOf n = 399 := by omega
      have hcomp : n100Of n = 3 ∧ n4Of n = 24 ∧ n1Of n = 3 := by
        have h3 := n100_le n
        have h4 := n4_le n
        have h1 := n1_le n
        unfold yoeOf at hy399
        omega
      obtain ⟨hn100, hn4, hn1⟩ := hcomp
      have hd2 : d2Of n = doeOf n - 109572 := by
        unfold d2Of; rw [hn100]
      have hd2b : d2Of n ≤ 36464 := by omega
      have hd3 : d3Of n ≤ 1400 := by
        have e1 : n4Of n = d2Of n / 1461 := rfl
        have e2 : d3Of n = d2Of n % 1461 := rfl
        omega
      have hdoy : doyOf n ≤ 305 := by
        unfold doyOf; rw [hn1]; omega
      have hmp : mpOf n ≤ 9 := by unfold mpOf; omega
      have hmo : monthOf n = mpOf n + 3 := by unfold monthOf; rw [if_pos (by omega)]
      unfold yearOf
      rw [if_neg (by omega)]
      omega

set_option maxRecDepth 4000 in
theorem calDayCheck_all : ∀ doy < 366, calDayCheck doy = true := by decide

theorem monthLen_ge_28 (b : Bool) (m : Nat) (h1 : 1 ≤ m) (h2 : m ≤ 12) :
    28 ≤ monthLen b m := by
  interval_cases m <;> cases b <;> decide

theorem monthLen_le_31 (b : Bool) (m : Nat) : monthLen b m ≤ 31 := by
  unfold monthLen
  split <;> cases b <;> decide

theorem monthLen_ne_two (b : Bool) (m : Nat) (h2 : m ≤ 12) (h : m ≠ 2) :
    monthLen b m = monthLen false m := by
  interval_cases m <;> first | rfl | exact absurd rfl h

theorem day_bounds (n : Nat) :
    1 ≤ monthOf n ∧ monthOf n ≤ 12 ∧ 1 ≤ dayOf n ∧
    dayOf n ≤ monthLen (isLeapYear (yearOf n)) (monthOf n) := by
  have hdoy := doy_le n
  have hc := calDayCheck_all (doyOf n) (by omega)
  simp only [calDayCheck, decide_eq_true_eq] at hc
  have hmp : mpOf n = (5 * doyOf n + 2) / 153 := rfl
  have hday : dayOf n = doyOf n - (153 * mpOf n + 2) / 5 + 1 := rfl
  have hmo : monthOf n = if mpOf n < 10 then mpOf n + 3 else mpOf n - 9 := rfl
  rw [← hmp, ← hday, ← hmo] at hc
  obtain ⟨hm1, hm2, hd1, hfeb, hnfeb⟩ := hc
  refine ⟨hm1, hm2, hd1, ?_⟩
  by_cases h2 : monthOf n = 2
  · rcases hfeb h2 with hle | ⟨h365, h29⟩
    · have := monthLen_ge_28 (isLeapYear (yearOf n)) (monthOf n) hm1 hm2
      omega
    · have hleap := leap_of_doy365 n h365
      rw [h29, h2, hleap]
      decide
  · rw [monthLen_ne_two _ _ hm2 h2]
    exact hnfeb h2

/-! ## Validity of the RFC3339 rendering -/

theorem isDigitChar_digit10 (x : Nat) : isDigitChar (Char.ofNat (48 + x % 10)) = true := by
  have h : x % 10 ≤ 9 := by omega
  set r := x % 10 with hr
  interval_cases r <;> decide

theorem digitVal_digit10 (x : Nat) : digitVal (Char.ofNat (48 + x % 10)) = x % 10 := by
  have h : x % 10 ≤ 9 := by omega
  set r := x % 10 with hr
  interval_cases r <;> decide

set_option maxRecDepth 4000 in
/-- The formatter emits a valid RFC3339 UTC string for every instant
from the epoch up to the end of year 9999 (the four-digit-year range it
can represent). -/
theorem formatRFC3339_valid (ms : Int) (h0 : 0 ≤ ms) (h1 : ms < 253402300800000) :
    isRFC3339UTC (formatRFC3339 ms) = true := by
  obtain ⟨N, rfl⟩ : ∃ n : Nat, ms = (n : Int) := ⟨ms.toNat, by omega⟩
  have hN : N < 253402300800000 := by exact_mod_cast h1
  have hdiv : ((N : Int)).ediv 86400000 = ((N / 86400000 : Nat) : Int) := rfl
  have hmod : ((N : Int)).emod 86400000 = ((N % 86400000 : Nat) : Int) := rfl
  have hn2 : ((N : Int).ediv 86400000 + 719468).toNat = N / 86400000 + 719468 := by
    rw [hdiv]; omega
  have htod : ((N : Int).emod 86400000).toNat = N % 86400000 := by
    rw [hmod]; omega
  simp only [formatRFC3339, civilFromDays, hn2, htod]
  set nn := N / 86400000 + 719468 with hnn
  set tod := N % 86400000 with htod2
  have hnle : nn ≤ 3652364 := by omega
  have htlt : tod < 86400000 := by omega
  have hy := year_le nn hnle
  obtain ⟨hm1, hm2, hd1, hd2⟩ := day_bounds nn
  rw [yearChars, if_pos (show yearOf nn < 10000 by omega)]
  simp only [pad4Chars, pad2Chars, List.cons_append, List.nil_append]
  simp only [isRFC3339UTC, isDigitChar_digit10, digitVal_digit10,
    List.all_cons, List.all_nil, Bool.and_eq_true, beq_self_eq_true,
    decide_eq_true_eq]
  have hyr : 1000 * (yearOf nn / 1000 % 10) + 100 * (yearOf nn / 100 % 10)
      + 10 * (yearOf nn / 10 % 10) + yearOf nn % 10 = yearOf nn := by omega
  have hmor : 10 * (monthOf nn / 10 % 10) + monthOf nn % 10 = monthOf nn := by omega
  have hdar : 10 * (dayOf nn / 10 % 10) + dayOf nn % 10 = dayOf nn := by
    have h31 : dayOf nn ≤ 31 := by
      have := monthLen_le_31 (isLeapYear (yearOf nn)) (monthOf nn)
      omega
    omega
  rw [hyr, hmor, hdar]
  exact ⟨by simp, ⟨⟨⟨⟨⟨hm1, hm2⟩, hd1⟩, hd2⟩, by omega⟩, by omega⟩, by omega⟩


/-! ## ObjectID hex round trip -/

theorem natToHexDigits_length (w : Nat) : ∀ n, (natToHexDigits w n).length = w := by
  induction w with
  | zero => intro n; rfl
  | succ w ih => intro n; simp [natToHexDigits, ih]

theorem hexDigitVal_hexDigitChar (d : Nat) (h : d < 16) :
    hexDigitVal (hexDigitChar d) = some d := by
  interval_cases d <;> decide

theorem natToHexDigits_lt (w : Nat) : ∀ n, ∀ d ∈ natToHexDigits w n, d < 16 := by
  induction w with
  | zero => intro n d hd; simp [natToHexDigits] at hd
  | succ w ih =>
    intro n d hd
    simp only [natToHexDigits, List.mem_append, List.mem_singleton] at hd
    rcases hd with h | h
    · exact ih _ _ h
    · omega

theorem foldl_hexDigits (w : Nat) : ∀ n acc,
    List.foldl (fun a c => 16 * a + (hexDigitVal c).getD 0) acc
        ((natToHexDigits w n).map hexDigitChar)
      = 16 ^ w * acc + n % 16 ^ w := by
  induction w with
  | zero => intro n acc; simp [natToHexDigits, Nat.mod_one]
  | succ w ih =>
    intro n acc
    rw [natToHexDigits, List.map_append, List.foldl_append, ih]
    simp only [List.map_cons, List.map_nil, List.foldl_cons, List.foldl_nil,
      hexDigitVal_hexDigitChar (n % 16) (by omega), Option.getD_some]
    have h16 : (16 : Nat) ^ (w + 1) = 16 * 16 ^ w := by ring
    rw [h16, Nat.mod_mul]
    ring

theorem fromHex_oidHex (n : Nat) (h : n < 16 ^ 24) : fromHex (oidHex n) = some n := by
  unfold fromHex oidHex
  have hdata : ∀ l : List Char, (String.mk l).data = l := fun l => rfl
  rw [hdata]
  have hcond : ((natToHexDigits 24 n).map hexDigitChar).length = 24 ∧
      ((natToHexDigits 24 n).map hexDigitChar).all (fun c => (hexDigitVal c).isSome) := by
    constructor
    · rw [List.length_map, natToHexDigits_length 24 n]
    · rw [List.all_eq_true]
      intro c hc
      rw [List.mem_map] at hc
      obtain ⟨d, hd, rfl⟩ := hc
      rw [hexDigitVal_hexDigitChar d (natToHexDigits_lt 24 n d hd)]
      rfl
  rw [if_pos hcond, foldl_hexDigits]
  rw [Nat.mul_zero, Nat.zero_add, Nat.mod_eq_of_lt h]

/-! ## Association list and store lemmas -/

theorem lookupField_append_none (a b : Doc) (k : String) (h : lookupField a k = none) :
    lookupField (a ++ b) k = lookupField b k := by
  induction a with
  | nil => rfl
  | cons kv rest ih =>
    obtain ⟨k0, v0⟩ := kv
    unfold lookupField at h
    rw [List.cons_append]
    show (if k0 = k then some v0 else lookupField (rest ++ b) k) = lookupField b k
    split at h
    · cases h
    · rw [if_neg (by assumption)]
      exact ih h

theorem lookupField_append_some (a b : Doc) (k : String) (v : BVal)
    (h : lookupField a k = some v) : lookupField (a ++ b) k = some v := by
  induction a with
  | nil => cases h
  | cons kv rest ih =>
    obtain ⟨k0, v0⟩ := kv
    unfold lookupField at h
    rw [List.cons_append]
    show (if k0 = k then some v0 else lookupField (rest ++ b) k) = some v
    split at h
    · rw [if_pos (by assumption)]; exact h
    · rw [if_neg (by assumption)]
      exact ih h

theorem nameField_lookup_ne (d : Doc) (k : String) (h : k ≠ "name") :
    lookupField (nameField d) k = none := by
  unfold nameField
  split <;> simp [lookupField, Ne.symm h]

theorem emailField_lookup_ne (d : Doc) (k : String) (h : k ≠ "email") :
    lookupField (emailField d) k = none := by
  unfold emailField
  split <;> simp [lookupField, Ne.symm h]

theorem ageField_lookup_ne (d : Doc) (k : String) (h : k ≠ "age") :
    lookupField (ageField d) k = none := by
  unfold ageField
  split <;> simp [lookupField, Ne.symm h]

theorem createdField_lookup_ne (d : Doc) (k : String) (h : k ≠ "created_at") :
    lookupField (createdField d) k = none := by
  unfold createdField
  split <;> simp [lookupField, Ne.symm h]

theorem nameField_lookup (d : Doc) :
    lookupField (nameField d) "name" =
      match lookupField d "name" with
      | some (.str v) => some (BVal.str v)
      | _ => none := by
  unfold nameField
  cases hv : lookupField d "name" with
  | none => rfl
  | some v => cases v <;> rfl

theorem emailField_lookup (d : Doc) :
    lookupField (emailField d) "email" =
      match lookupField d "email" with
      | some (.str v) => some (BVal.str v)
      | _ => none := by
  unfold emailField
  cases hv : lookupField d "email" with
  | none => rfl
  | some v => cases v <;> rfl

theorem ageField_lookup (d : Doc) :
    lookupField (ageField d) "age" =
      match lookupField d "age" with
      | some (.i32 v) => some (BVal.intv v)
      | some (.intv v) => some (BVal.intv v)
      | some (.f64 v) => some (BVal.intv v)
      | _ => none := by
  unfold ageField
  cases hv : lookupField d "age" with
  | none => rfl
  | some v => cases v <;> rfl

theorem createdField_lookup (d : Doc) :
    lookupField (createdField d) "created_at" =
      (lookupField d "created_at").map normalizeCreatedAt := by
  unfold createdField
  cases hv : lookupField d "created_at" with
  | none => rfl
  | some v => rfl

theorem buildUserResp_id (i : Nat) (d : Doc) :
    lookupField (buildUserResp i d) "id" = some (.str (oidHex i)) := by
  unfold buildUserResp lookupField
  rw [if_pos rfl]

theorem buildUserResp_name (i : Nat) (d : Doc) :
    lookupField (buildUserResp i d) "name" = lookupField (nameField d) "name" := by
  unfold buildUserResp
  rw [lookupField, if_neg (by decide)]
  cases hseg : lookupField (nameField d) "name" with
  | none =>
    rw [lookupField_append_none _ _ _ hseg,
      lookupField_append_none _ _ _ (emailField_lookup_ne d _ (by decide)),
      lookupField_append_none _ _ _ (ageField_lookup_ne d _ (by decide)),
      createdField_lookup_ne d _ (by decide)]
  | some v => rw [lookupField_append_some _ _ _ _ hseg]

theorem buildUserResp_email (i : Nat) (d : Doc) :
    lookupField (buildUserResp i d) "email" = lookupField (emailField d) "email" := by
  unfold buildUserResp
  rw [lookupField, if_neg (by decide)]
  rw [lookupField_append_none _ _ _ (nameField_lookup_ne d _ (by decide))]
  cases hseg : lookupField (emailField d) "email" with
  | none =>
    rw [lookupField_append_none _ _ _ hseg,
      lookupField_append_none _ _ _ (ageField_lookup_ne d _ (by decide)),
      createdField_lookup_ne d _ (by decide)]
  | some v => rw [lookupField_append_some _ _ _ _ hseg]

theorem buildUserResp_age (i : Nat) (d : Doc) :
    lookupField (buildUserResp i d) "age" = lookupField (ageField d) "age" := by
  unfold buildUserResp
  rw [lookupField, if_neg (by decide)]
  rw [lookupField_append_none _ _ _ (nameField_lookup_ne d _ (by decide)),
    lookupField_append_none _ _ _ (emailField_lookup_ne d _ (by decide))]
  cases hseg : lookupField (ageField d) "age" with
  | none =>
    rw [lookupField_append_none _ _ _ hseg,
      createdField_lookup_ne d _ (by decide)]
  | some v => rw [lookupField_append_some _ _ _ _ hseg]

theorem buildUserResp_created (i : Nat) (d : Doc) :
    lookupField (buildUserResp i d) "created_at"
      = lookupField (createdField d) "created_at" := by
  unfold buildUserResp
  rw [lookupField, if_neg (by decide)]
  rw [lookupField_append_none _ _ _ (nameField_lookup_ne d _ (by decide)),
    lookupField_append_none _ _ _ (emailField_lookup_ne d _ (by decide)),
    lookupField_append_none _ _ _ (ageField_lookup_ne d _ (by decide))]


theorem findDoc_mem (s : Store) (i : Nat) (d : Doc) (h : findDoc s i = some d) :
    (i, d) ∈ s := by
  induction s with
  | nil => cases h
  | cons p rest ih =>
    obtain ⟨k, dd⟩ := p
    unfold findDoc at h
    split at h
    · injection h with h2
      subst h2
      rename_i hk
      subst hk
      exact List.mem_cons_self _ _
    · exact List.mem_cons_of_mem _ (ih h)

theorem findDoc_append_fresh (s : Store) (i : Nat) (d : Doc) (h : findDoc s i = none) :
    findDoc (s ++ [(i, d)]) i = some d := by
  induction s with
  | nil => simp [findDoc]
  | cons p rest ih =>
    obtain ⟨k, dd⟩ := p
    unfold findDoc at h
    rw [List.cons_append]
    show (if k = i then some dd else findDoc (rest ++ [(i, d)]) i) = some d
    split at h
    · cases h
    · rw [if_neg (by assumption)]
      exact ih h

theorem applySet_ids (s : Store) (i : Nat) (fs : Doc) :
    (applySet s i fs).map Prod.fst = s.map Prod.fst := by
  unfold applySet
  rw [List.map_map]
  congr 1
  funext p
  by_cases hp : p.1 = i <;> simp [hp]

theorem applySet_not_found (s : Store) (i : Nat) (fs : Doc) (h : findDoc s i = none) :
    applySet s i fs = s := by
  induction s with
  | nil => rfl
  | cons p rest ih =>
    obtain ⟨k, dd⟩ := p
    unfold findDoc at h
    split at h
    · cases h
    · unfold applySet
      rw [List.map_cons]
      rw [if_neg (by assumption)]
      have := ih h
      unfold applySet at this
      rw [this]

theorem deleteFirst_not_found (s : Store) (i : Nat) (h : findDoc s i = none) :
    deleteFirst s i = s := by
  induction s with
  | nil => rfl
  | cons p rest ih =>
    obtain ⟨k, dd⟩ := p
    unfold findDoc at h
    unfold deleteFirst
    split at h
    · cases h
    · rw [if_neg (by assumption)]
      rw [ih h]

theorem findDoc_applySet (s : Store) (i j : Nat) (fs : Doc) :
    findDoc (applySet s i fs) j =
      (findDoc s j).map (fun d => if j = i then setFields d fs else d) := by
  induction s with
  | nil => rfl
  | cons p rest ih =>
    obtain ⟨k, dd⟩ := p
    unfold applySet
    rw [List.map_cons]
    by_cases hk : k = i
    · rw [if_pos hk]
      show (if k = j then some (setFields dd fs) else findDoc (applySet rest i fs) j) = _
      by_cases hj : k = j
      · rw [if_pos hj]
        show _ = (if k = j then some dd else findDoc rest j).map _
        rw [if_pos hj]
        simp [← hj, hk]
      · rw [if_neg hj]
        show _ = (if k = j then some dd else findDoc rest j).map _
        rw [if_neg hj]
        exact ih
    · rw [if_neg hk]
      show (if k = j then some dd else findDoc (applySet rest i fs) j) = _
      by_cases hj : k = j
      · rw [if_pos hj]
        show _ = (if k = j then some dd else findDoc rest j).map _
        rw [if_pos hj]
        simp [← hj, hk]
      · rw [if_neg hj]
        show _ = (if k = j then some dd else findDoc rest j).map _
        rw [if_neg hj]
        exact ih

theorem lookupField_setField_ne (d : Doc) (f k : String) (v : BVal) (h : k ≠ f) :
    lookupField (setField d f v) k = lookupField d k := by
  induction d with
  | nil =>
    show lookupField [(f, v)] k = lookupField [] k
    simp [lookupField, Ne.symm h]
  | cons kv rest ih =>
    obtain ⟨k0, v0⟩ := kv
    unfold setField
    by_cases h0 : k0 = f
    · rw [if_pos h0]
      show (if f = k then some v else lookupField rest k) = _
      rw [if_neg (Ne.symm h)]
      show _ = (if k0 = k then some v0 else lookupField rest k)
      rw [if_neg (by rw [h0]; exact Ne.symm h)]
    · rw [if_neg h0]
      show (if k0 = k then some v0 else lookupField (setField rest f v) k) = _
      show _ = (if k0 = k then some v0 else lookupField rest k)
      rw [ih]

theorem lookupField_setFields_ne (fs : Doc) (d : Doc) (k : String)
    (h : ∀ kv ∈ fs, k ≠ kv.1) : lookupField (setFields d fs) k = lookupField d k := by
  induction fs generalizing d with
  | nil => rfl
  | cons kv rest ih =>
    show lookupField (setFields (setField d kv.1 kv.2) rest) k = _
    rw [ih _ (fun x hx => h x (List.mem_cons_of_mem _ hx))]
    exact lookupField_setField_ne d kv.1 k kv.2 (h kv (List.mem_cons_self _ _))

theorem stripId_keys (body : Doc) : ∀ kv ∈ stripId body, kv.1 ≠ "id" := by
  intro kv hkv
  unfold stripId at hkv
  rw [List.mem_filter] at hkv
  simpa using hkv.2


/-! ## Normalization and insertion lemmas -/

theorem normalizeCreatedAt_recognized (v : BVal) (ms : Int)
    (h : recognizedMillis v = some ms) :
    normalizeCreatedAt v = .str (formatRFC3339 ms) := by
  cases v with
  | datetime m =>
    simp only [recognizedMillis, Option.some.injEq] at h
    rw [normalizeCreatedAt, h]
  | timeT m =>
    simp only [recognizedMillis, Option.some.injEq] at h
    rw [normalizeCreatedAt, h]
  | doc fields =>
    simp only [recognizedMillis] at h
    simp only [normalizeCreatedAt]
    split at h
    · rename_i s heq
      simp only [h]
    · cases h
  | null => cases h
  | str s => cases h
  | i32 m => cases h
  | i64 m => cases h
  | intv m => cases h
  | f64 m => cases h
  | oidv m => cases h
  | arr l => cases h

theorem userToDoc_name (u : CreateIn) (now : Int) :
    lookupField (userToDoc u now) "name"
      = if u.name = "" then none else some (.str u.name) := by
  unfold userToDoc
  by_cases hn : u.name = "" <;> by_cases he : u.email = "" <;>
    by_cases ha : u.age = 0 <;> simp [hn, he, ha, lookupField]

theorem userToDoc_email (u : CreateIn) (now : Int) :
    lookupField (userToDoc u now) "email"
      = if u.email = "" then none else some (.str u.email) := by
  unfold userToDoc
  by_cases hn : u.name = "" <;> by_cases he : u.email = "" <;>
    by_cases ha : u.age = 0 <;> simp [hn, he, ha, lookupField]

theorem userToDoc_age (u : CreateIn) (now : Int) :
    lookupField (userToDoc u now) "age"
      = if u.age = 0 then none else some (encodeGoInt u.age) := by
  unfold userToDoc
  by_cases hn : u.name = "" <;> by_cases he : u.email = "" <;>
    by_cases ha : u.age = 0 <;> simp [hn, he, ha, lookupField]

theorem userToDoc_created (u : CreateIn) (now : Int) :
    lookupField (userToDoc u now) "created_at"
      = some (.datetime (u.createdAt.getD now)) := by
  unfold userToDoc
  by_cases hn : u.name = "" <;> by_cases he : u.email = "" <;>
    by_cases ha : u.age = 0 <;> simp [hn, he, ha, lookupField]

theorem listRows_mem (s : Store) (i : Nat) (d : Doc) (h : (i, d) ∈ s) :
    BVal.doc (buildUserResp i d) ∈ listRows s := by
  unfold listRows
  exact List.mem_map.mpr ⟨(i, d), h, rfl⟩

theorem listUsers_status (s : Store) : (listUsers s).status = 200 := by
  unfold listUsers
  cases hrows : listRows s <;> rfl


/-! ## Claims -/

/-- C6: for every request GET /users/id whose id string is not a valid
hex identifier, the handler answers 400 — never 500 — with the plain-text
error body, and attempts no database operation; the response is the same
whatever the state of the collection. -/
theorem c6_invalid_id (s : Store) (idStr : String) (h : fromHex idStr = none) :
    getUser s idStr = ⟨400, .str "invalid id", 0⟩ := by
  unfold getUser
  rw [h]

/-- Witness for `c6_invalid_id` at the spec scenario `not-a-valid-id`. -/
theorem c6_invalid_id_witness :
    fromHex "not-a-valid-id" = none ∧
    getUser [(0, [("name", BVal.str "Ann")])] "not-a-valid-id"
      = ⟨400, .str "invalid id", 0⟩ :=
  ⟨by decide, c6_invalid_id _ _ (by decide)⟩

/-- C9: once a connection is cached in the singleton, `Connect` returns
it for any uri and database name and leaves the whole state — including
the dial counter and the set of open handles — untouched: no new
connection is established. -/
theorem c9_connect_idempotent (st : DBState) (c : MongoClient)
    (h : st.clientInstance = some c) (uri dbName : String) (dialOk pingOk : Bool) :
    Connect st uri dbName dialOk pingOk = (st, .ok c) := by
  unfold Connect
  rw [h]

/-- Witness for `c9_connect_idempotent`: a cached client is returned even
for a different uri and database name and a dial that would fail. -/
theorem c9_connect_idempotent_witness :
    (DBState.mk [0] 1 (some ⟨some 0, some (0, "test_database")⟩) 1).clientInstance
      = some ⟨some 0, some (0, "test_database")⟩ ∧
    Connect (DBState.mk [0] 1 (some ⟨some 0, some (0, "test_database")⟩) 1)
        "mongodb://other:27017" "other_db" false false
      = (DBState.mk [0] 1 (some ⟨some 0, some (0, "test_database")⟩) 1,
          .ok ⟨some 0, some (0, "test_database")⟩) :=
  ⟨rfl, c9_connect_idempotent _ _ rfl _ _ _ _⟩

/-- C10 counterexample: calling `Disconnect` again after the connection
was closed is not a safe no-op returning no error — the method never
clears `mc.Client`, so the second call reaches the driver, which returns
its client-is-disconnected error. -/
theorem c10_disconnect_counterexample :
    (MongoClient.Disconnect ⟨some 0, some (0, "test_database")⟩
        ⟨[0], 1, some ⟨some 0, some (0, "test_database")⟩, 1⟩).2 = none ∧
    (MongoClient.Disconnect ⟨some 0, some (0, "test_database")⟩
        (MongoClient.Disconnect ⟨some 0, some (0, "test_database")⟩
          ⟨[0], 1, some ⟨some 0, some (0, "test_database")⟩, 1⟩).1).2
      = some "failed to disconnect from MongoDB: client is disconnected" ∧
    some "failed to disconnect from MongoDB: client is disconnected"
      ≠ (none : Option String) :=
  ⟨rfl, rfl, by decide⟩

/-- C10 (amended): `Disconnect` on an open client handle closes it,
clears the singleton and returns no error; on a `MongoClient` whose inner
client is `nil` it is a no-op returning no error; but a second call on
the same value after the handle was closed reaches the driver again and
returns the client-is-disconnected error, leaving the state as it was. -/
theorem c10_disconnect_amended (st : DBState) (mc : MongoClient) (h : Nat)
    (hc : mc.client = some h) (hone : st.openClients.count h = 1) :
    mc.Disconnect st
      = ({st with openClients := st.openClients.erase h, clientInstance := none}, none) ∧
    (mc.Disconnect (mc.Disconnect st).1).2
      = some "failed to disconnect from MongoDB: client is disconnected" ∧
    (mc.Disconnect (mc.Disconnect st).1).1 = (mc.Disconnect st).1 ∧
    MongoClient.Disconnect ⟨none, mc.db⟩ st = (st, none) := by
  have hmem : h ∈ st.openClients := by
    have := List.count_pos_iff.mp (by omega : 0 < st.openClients.count h)
    exact this
  have hgone : h ∉ st.openClients.erase h := by
    have hcount : (st.openClients.erase h).count h = 0 := by
      rw [List.count_erase_self]
      omega
    exact List.count_eq_zero.mp hcount
  have h1 : mc.Disconnect st
      = ({st with openClients := st.openClients.erase h, clientInstance := none}, none) := by
    unfold MongoClient.Disconnect
    simp only [hc]
    rw [if_pos hmem]
  refine ⟨h1, ?_, ?_, ?_⟩
  · rw [h1]
    unfold MongoClient.Disconnect
    simp only [hc]
    rw [if_neg hgone]
  · rw [h1]
    unfold MongoClient.Disconnect
    simp only [hc]
    rw [if_neg hgone]
  · rfl

/-- Witness for `c10_disconnect_amended` on a one-connection state. -/
theorem c10_disconnect_amended_witness :
    (⟨some 5, some (5, "test_database")⟩ : MongoClient).client = some 5 ∧
    (DBState.mk [5] 6 (some ⟨some 5, some (5, "test_database")⟩) 1).openClients.count 5 = 1 ∧
    (MongoClient.Disconnect ⟨some 5, some (5, "test_database")⟩
        (DBState.mk [5] 6 (some ⟨some 5, some (5, "test_database")⟩) 1)
      = (DBState.mk [] 6 none 1, none) ∧
    (MongoClient.Disconnect ⟨some 5, some (5, "test_database")⟩
        (MongoClient.Disconnect ⟨some 5, some (5, "test_database")⟩
          (DBState.mk [5] 6 (some ⟨some 5, some (5, "test_database")⟩) 1)).1).2
      = some "failed to disconnect from MongoDB: client is disconnected" ∧
    (MongoClient.Disconnect ⟨some 5, some (5, "test_database")⟩
        (MongoClient.Disconnect ⟨some 5, some (5, "test_database")⟩
          (DBState.mk [5] 6 (some ⟨some 5, some (5, "test_database")⟩) 1)).1).1
      = (MongoClient.Disconnect ⟨some 5, some (5, "test_database")⟩
          (DBState.mk [5] 6 (some ⟨some 5, some (5, "test_database")⟩) 1)).1 ∧
    MongoClient.Disconnect ⟨none, some (5, "test_database")⟩
        (DBState.mk [5] 6 (some ⟨some 5, some (5, "test_database")⟩) 1)
      = (DBState.mk [5] 6 (some ⟨some 5, some (5, "test_database")⟩) 1, none)) :=
  ⟨rfl, by decide, c10_disconnect_amended _ _ 5 rfl (by decide)⟩

/-- C4 counterexample: updating an existing document with the empty JSON
body does leave the document unchanged, but the response status is 500
(the store rejects an empty merge-set), not the claimed 200. -/
theorem c4_empty_update_counterexample :
    (updateUser [(0, [("name", BVal.str "Ann")])] (oidHex 0) (some [])).2.status = 500 ∧
    (updateUser [(0, [("name", BVal.str "Ann")])] (oidHex 0) (some [])).1
      = [(0, [("name", BVal.str "Ann")])] ∧
    (500 : Nat) ≠ 200 :=
  ⟨by decide, rfl, by decide⟩

/-- C4 (amended): for every valid id — whether or not a document matches
it — an update whose JSON body is the empty object leaves the collection
unchanged, but the handler returns 500: after stripping `id` the update
document is an empty `$set`, which MongoDB rejects. -/
theorem c4_empty_update_amended (s : Store) (idStr : String) (i : Nat)
    (h : fromHex idStr = some i) :
    updateUser s idStr (some [])
      = (s, ⟨500, .str "update error: empty $set document", 1⟩) := by
  unfold updateUser
  rw [h]
  rfl

/-- Witness for `c4_empty_update_amended` on a one-document store. -/
theorem c4_empty_update_amended_witness :
    fromHex (oidHex 0) = some 0 ∧
    updateUser [(0, [("name", BVal.str "Ann")])] (oidHex 0) (some [])
      = ([(0, [("name", BVal.str "Ann")])],
          ⟨500, .str "update error: empty $set document", 1⟩) :=
  ⟨by decide, c4_empty_update_amended _ _ 0 (by decide)⟩

/-- C7 counterexample: on the empty collection the list handler returns
200 but its body is JSON `null` — the rows slice is still `nil` and
`encoding/json` marshals a nil slice as `null` — not the empty array the
claim requires. -/
theorem c7_list_counterexample :
    (listUsers []).status = 200 ∧ (listUsers []).body = BVal.null ∧
    BVal.null ≠ BVal.arr [] :=
  ⟨rfl, rfl, fun hcontra => nomatch hcontra⟩

/-- C7 (amended): a successful GET /users always returns 200 after one
database operation; a non-empty collection yields the JSON array of
normalized User objects, but the empty collection yields JSON `null`
rather than an empty array. -/
theorem c7_list_amended (s : Store) :
    (listUsers s).status = 200 ∧ (listUsers s).dbOps = 1 ∧
    (listUsers s).body = (match s with
      | [] => BVal.null
      | _ => BVal.arr (listRows s)) := by
  cases s with
  | nil => exact ⟨rfl, rfl, rfl⟩
  | cons p rest =>
    have hrows : listRows (p :: rest)
        = BVal.doc (buildUserResp p.1 p.2) :: listRows rest := rfl
    refine ⟨listUsers_status _, ?_, ?_⟩
    · unfold listUsers
      rw [hrows]
    · unfold listUsers
      rw [hrows]

/-- C8 counterexample: for a well-formed id matching no document the
update operation can still fail: with an empty JSON body it returns 500
(empty merge-set), not 200. -/
theorem c8_missing_id_counterexample :
    findDoc ([] : Store) 0 = none ∧
    (updateUser [] (oidHex 0) (some [])).2.status = 500 ∧
    (500 : Nat) ≠ 200 :=
  ⟨rfl, by decide, by decide⟩

/-- C8 (amended): for every well-formed id matching no stored document,
delete returns 200 with the hex id and leaves the collection unchanged,
and update does the same provided the body holds at least one field
other than `id`; with an empty effective body the store rejects the
empty merge-set (500, collection still unchanged, per C4). -/
theorem c8_missing_id_amended (s : Store) (idStr : String) (i : Nat) (body : Doc)
    (h : fromHex idStr = some i) (hnf : findDoc s i = none) (hb : stripId body ≠ []) :
    deleteUser s idStr = (s, ⟨200, .doc [("id", .str (oidHex i))], 1⟩) ∧
    updateUser s idStr (some body) = (s, ⟨200, .doc [("id", .str (oidHex i))], 1⟩) := by
  constructor
  · unfold deleteUser
    rw [h]
    show (deleteFirst s i, (⟨200, .doc [("id", .str (oidHex i))], 1⟩ : HResp)) = _
    rw [deleteFirst_not_found s i hnf]
  · unfold updateUser
    rw [h]
    show (match stripId body with
      | [] => (s, (⟨500, .str "update error: empty $set document", 1⟩ : HResp))
      | fields => (applySet s i fields, ⟨200, .doc [("id", .str (oidHex i))], 1⟩)) = _
    cases hsb : stripId body with
    | nil => exact absurd hsb hb
    | cons a l =>
      show (applySet s i (a :: l), (⟨200, .doc [("id", .str (oidHex i))], 1⟩ : HResp)) = _
      rw [applySet_not_found s i (a :: l) hnf]

/-- Witness for `c8_missing_id_amended` on the empty collection. -/
theorem c8_missing_id_amended_witness :
    fromHex (oidHex 0) = some 0 ∧ findDoc ([] : Store) 0 = none ∧
    stripId [("age", BVal.i32 30)] ≠ [] ∧
    (deleteUser [] (oidHex 0) = ([], ⟨200, .doc [("id", .str (oidHex 0))], 1⟩) ∧
    updateUser [] (oidHex 0) (some [("age", BVal.i32 30)])
      = ([], ⟨200, .doc [("id", .str (oidHex 0))], 1⟩)) :=
  ⟨by decide, rfl, by simp [stripId],
    c8_missing_id_amended _ _ 0 _ (by decide) rfl (by simp [stripId])⟩


/-- The post-state of a well-addressed update: unchanged when the
stripped body is empty (the write is rejected), otherwise the merge-set
applied at the addressed id. -/
theorem updateUser_state (s : Store) (idStr : String) (i : Nat) (body : Doc)
    (h : fromHex idStr = some i) :
    (updateUser s idStr (some body)).1
      = (match stripId body with
         | [] => s
         | fields => applySet s i fields) := by
  unfold updateUser
  rw [h]
  show (match stripId body with
    | [] => (s, (⟨500, .str "update error: empty $set document", 1⟩ : HResp))
    | fields => (applySet s i fields, ⟨200, .doc [("id", .str (oidHex i))], 1⟩)).1 = _
  cases hsb : stripId body <;> rfl

/-- A found document produces the 200 response with its normalization. -/
theorem getUser_found (s : Store) (idStr : String) (i : Nat) (d : Doc)
    (h : fromHex idStr = some i) (hf : findDoc s i = some d) :
    getUser s idStr = ⟨200, .doc (buildUserResp i d), 1⟩ := by
  unfold getUser
  rw [h]
  show (match findDoc s i with
    | none => (⟨404, .str "not found", 1⟩ : HResp)
    | some d2 => ⟨200, .doc (buildUserResp i d2), 1⟩) = _
  rw [hf]

/-- C3: for every update request with a valid id and a decoded JSON
body, the write is a merge-set of the body with any `id` field stripped:
the list of document identifiers is unchanged, every document previously
found is still found, its stored `id` field keeps its previous value,
and so does every field not named in the stripped body — documents other
than the matched one are untouched altogether. -/
theorem c3_partial_update_frame (s : Store) (idStr : String) (i : Nat) (body : Doc)
    (h : fromHex idStr = some i) :
    ((updateUser s idStr (some body)).1.map Prod.fst = s.map Prod.fst) ∧
    (∀ j d, findDoc s j = some d →
      ∃ d2, findDoc (updateUser s idStr (some body)).1 j = some d2 ∧
        lookupField d2 "id" = lookupField d "id" ∧
        (∀ k, (∀ kv ∈ stripId body, k ≠ kv.1) → lookupField d2 k = lookupField d k)) := by
  rw [updateUser_state s idStr i body h]
  cases hsb : stripId body with
  | nil =>
    exact ⟨rfl, fun j d hj => ⟨d, hj, rfl, fun k hk => rfl⟩⟩
  | cons a l =>
    constructor
    · exact applySet_ids s i (a :: l)
    · intro j d hj
      refine ⟨if j = i then setFields d (a :: l) else d, ?_, ?_, ?_⟩
      · rw [findDoc_applySet, hj]
        rfl
      · by_cases hji : j = i
        · rw [if_pos hji]
          refine lookupField_setFields_ne _ _ _ ?_
          intro kv hkv
          exact (stripId_keys body kv (by rw [hsb]; exact hkv)).symm
        · rw [if_neg hji]
      · intro k hk
        by_cases hji : j = i
        · rw [if_pos hji]
          exact lookupField_setFields_ne _ _ _ hk
        · rw [if_neg hji]

/-- Witness for `c3_partial_update_frame`: the spec scenario of updating
`age` (with a spurious `id` field in the body) on a stored user. -/
theorem c3_partial_update_frame_witness :
    fromHex (oidHex 0) = some 0 ∧
    (((updateUser [(0, [("name", BVal.str "Ann"), ("age", BVal.i32 31)])] (oidHex 0)
          (some [("age", BVal.i32 32), ("id", BVal.str "boo")])).1.map Prod.fst
        = [(0, [("name", BVal.str "Ann"), ("age", BVal.i32 31)])].map Prod.fst) ∧
      (∀ j d, findDoc [(0, [("name", BVal.str "Ann"), ("age", BVal.i32 31)])] j = some d →
        ∃ d2, findDoc (updateUser [(0, [("name", BVal.str "Ann"), ("age", BVal.i32 31)])]
              (oidHex 0) (some [("age", BVal.i32 32), ("id", BVal.str "boo")])).1 j
            = some d2 ∧
          lookupField d2 "id" = lookupField d "id" ∧
          (∀ k, (∀ kv ∈ stripId [("age", BVal.i32 32), ("id", BVal.str "boo")], k ≠ kv.1) →
            lookupField d2 k = lookupField d k))) :=
  ⟨by decide, c3_partial_update_frame _ _ 0 _ (by decide)⟩

/-- C5 counterexample: a document whose stored `age` is a 64-bit integer
is returned without any `age` field at all — the type switch handles
int32, Go int and float64, but a BSON int64 decodes to Go int64 and
falls through. -/
theorem c5_age_counterexample :
    lookupField [("age", BVal.i64 29)] "age" = some (BVal.i64 29) ∧
    (getUser [(0, [("age", BVal.i64 29)])] (oidHex 0)).status = 200 ∧
    respField (getUser [(0, [("age", BVal.i64 29)])] (oidHex 0)).body "age" = none :=
  ⟨rfl, by decide, rfl⟩

/-- C5 (amended): for every document returned by get (and row of list)
carrying an `age` field, the response carries `age` as a plain Go
integer when the stored value is an int32, an in-memory Go int, or a
double; a stored 64-bit integer is not recognized and `age` is omitted
from the response. -/
theorem c5_age_amended (s : Store) (idStr : String) (i : Nat) (d : Doc) (v : BVal)
    (h : fromHex idStr = some i) (hf : findDoc s i = some d)
    (ha : lookupField d "age" = some v) :
    (getUser s idStr).status = 200 ∧
    (∀ nv : Int, v = .i32 nv → respField (getUser s idStr).body "age" = some (.intv nv)) ∧
    (∀ nv : Int, v = .intv nv → respField (getUser s idStr).body "age" = some (.intv nv)) ∧
    (∀ nv : Int, v = .f64 nv → respField (getUser s idStr).body "age" = some (.intv nv)) ∧
    (∀ nv : Int, v = .i64 nv → respField (getUser s idStr).body "age" = none) ∧
    BVal.doc (buildUserResp i d) ∈ listRows s ∧ (listUsers s).status = 200 := by
  rw [getUser_found s idStr i d h hf]
  refine ⟨rfl, ?_, ?_, ?_, ?_, listRows_mem s i d (findDoc_mem s i d hf),
    listUsers_status s⟩ <;>
    intro nv hv <;> subst hv <;>
    show lookupField (buildUserResp i d) "age" = _ <;>
    rw [buildUserResp_age, ageField_lookup, ha]

/-- Witness for `c5_age_amended` on an int32-aged document. -/
theorem c5_age_amended_witness :
    fromHex (oidHex 0) = some 0 ∧
    findDoc [(0, [("age", BVal.i32 29)])] 0 = some [("age", BVal.i32 29)] ∧
    lookupField [("age", BVal.i32 29)] "age" = some (BVal.i32 29) ∧
    ((getUser [(0, [("age", BVal.i32 29)])] (oidHex 0)).status = 200 ∧
    (∀ nv : Int, BVal.i32 29 = BVal.i32 nv →
      respField (getUser [(0, [("age", BVal.i32 29)])] (oidHex 0)).body "age"
        = some (BVal.intv nv)) ∧
    (∀ nv : Int, BVal.i32 29 = BVal.intv nv →
      respField (getUser [(0, [("age", BVal.i32 29)])] (oidHex 0)).body "age"
        = some (BVal.intv nv)) ∧
    (∀ nv : Int, BVal.i32 29 = BVal.f64 nv →
      respField (getUser [(0, [("age", BVal.i32 29)])] (oidHex 0)).body "age"
        = some (BVal.intv nv)) ∧
    (∀ nv : Int, BVal.i32 29 = BVal.i64 nv →
      respField (getUser [(0, [("age", BVal.i32 29)])] (oidHex 0)).body "age" = none) ∧
    BVal.doc (buildUserResp 0 [("age", BVal.i32 29)])
      ∈ listRows [(0, [("age", BVal.i32 29)])] ∧
    (listUsers [(0, [("age", BVal.i32 29)])]).status = 200) :=
  ⟨by decide, rfl, rfl, c5_age_amended _ _ 0 _ _ (by decide) rfl rfl⟩

/-- C2 counterexample: a `created_at` stored as a plain int32 is passed
through the normalization unchanged — the response value is not a string
at all, let alone a valid RFC3339 UTC string. -/
theorem c2_created_at_counterexample :
    lookupField [("created_at", BVal.i32 7)] "created_at" = some (BVal.i32 7) ∧
    respField (getUser [(0, [("created_at", BVal.i32 7)])] (oidHex 0)).body "created_at"
      = some (BVal.i32 7) ∧
    BVal.isStr (BVal.i32 7) = false :=
  ⟨rfl, rfl, rfl⟩

/-- C2 (amended): for every document returned by get (and row of list)
whose `created_at` is one of the recognized encodings — a native BSON
datetime, an in-memory time value, or a legacy nested object whose
`$date` string parses as RFC3339 — and whose instant lies between
1970-01-01T00:00:00Z and the end of year 9999, the response `created_at`
is the RFC3339 UTC rendering of that instant, and that rendering is a
valid RFC3339 UTC string; unrecognized values are passed through
unchanged. -/
theorem c2_created_at_amended (s : Store) (idStr : String) (i : Nat) (d : Doc)
    (v : BVal) (ms : Int)
    (h : fromHex idStr = some i) (hf : findDoc s i = some d)
    (hv : lookupField d "created_at" = some v)
    (hm : recognizedMillis v = some ms)
    (h0 : 0 ≤ ms) (h1 : ms < 253402300800000) :
    (getUser s idStr).status = 200 ∧
    respField (getUser s idStr).body "created_at" = some (.str (formatRFC3339 ms)) ∧
    isRFC3339UTC (formatRFC3339 ms) = true ∧
    BVal.doc (buildUserResp i d) ∈ listRows s ∧ (listUsers s).status = 200 := by
  rw [getUser_found s idStr i d h hf]
  refine ⟨rfl, ?_, formatRFC3339_valid ms h0 h1,
    listRows_mem s i d (findDoc_mem s i d hf), listUsers_status s⟩
  show lookupField (buildUserResp i d) "created_at" = _
  rw [buildUserResp_created, createdField_lookup, hv]
  show some (normalizeCreatedAt v) = _
  rw [normalizeCreatedAt_recognized v ms hm]

/-- Witness for `c2_created_at_amended` on a BSON-datetime document at
the epoch. -/
theorem c2_created_at_amended_witness :
    fromHex (oidHex 0) = some 0 ∧
    findDoc [(0, [("created_at", BVal.datetime 0)])] 0
      = some [("created_at", BVal.datetime 0)] ∧
    lookupField [("created_at", BVal.datetime 0)] "created_at"
      = some (BVal.datetime 0) ∧
    recognizedMillis (BVal.datetime 0) = some 0 ∧
    ((0 : Int) ≤ 0 ∧ (0 : Int) < 253402300800000) ∧
    ((getUser [(0, [("created_at", BVal.datetime 0)])] (oidHex 0)).status = 200 ∧
    respField (getUser [(0, [("created_at", BVal.datetime 0)])] (oidHex 0)).body
        "created_at" = some (.str (formatRFC3339 0)) ∧
    isRFC3339UTC (formatRFC3339 0) = true ∧
    BVal.doc (buildUserResp 0 [("created_at", BVal.datetime 0)])
      ∈ listRows [(0, [("created_at", BVal.datetime 0)])] ∧
    (listUsers [(0, [("created_at", BVal.datetime 0)])]).status = 200) :=
  ⟨by decide, rfl, rfl, rfl, ⟨by decide, by decide⟩,
    c2_created_at_amended _ _ 0 _ _ 0 (by decide) rfl rfl rfl (by decide) (by decide)⟩

/-- C1 counterexample: a payload whose `created_at` has sub-second
precision does not round-trip with the same field values: half a second
past the epoch is stored, but the subsequent get renders
`1970-01-01T00:00:00Z`, which denotes the epoch itself — a different
value from the payload's. -/
theorem c1_roundtrip_counterexample :
    (createUser [] (some ⟨"Ann", "", 0, some 500⟩) 0 0).2.status = 201 ∧
    respField (getUser (createUser [] (some ⟨"Ann", "", 0, some 500⟩) 0 0).1
        (oidHex 0)).body "created_at" = some (.str "1970-01-01T00:00:00Z") ∧
    parseRFC3339 "1970-01-01T00:00:00Z" = some 0 ∧
    (0 : Int) ≠ 500 :=
  ⟨rfl, rfl, by decide, by decide⟩

/-- C1 (amended): for every create payload, as decoded into the typed
User struct (Go zero values — empty name or email, age 0 — are absent by
`omitempty`), with age within the 32-bit range, POST returns 201 with
the fresh id, and a subsequent GET of that id returns 200 with the same
name, email and age, and with `created_at` the RFC3339 UTC rendering of
the payload timestamp (of the insertion time when absent) — i.e. the
stored instant truncated to whole seconds. -/
theorem c1_roundtrip_amended (s : Store) (u : CreateIn) (now : Int) (newId : Nat)
    (hfresh : findDoc s newId = none) (hid : newId < 16 ^ 24)
    (hage : -2147483648 ≤ u.age ∧ u.age ≤ 2147483647) :
    (createUser s (some u) now newId).2.status = 201 ∧
    (createUser s (some u) now newId).2.body = .doc [("id", .str (oidHex newId))] ∧
    (getUser (createUser s (some u) now newId).1 (oidHex newId)).status = 200 ∧
    respField (getUser (createUser s (some u) now newId).1 (oidHex newId)).body "id"
      = some (.str (oidHex newId)) ∧
    respField (getUser (createUser s (some u) now newId).1 (oidHex newId)).body "name"
      = (if u.name = "" then none else some (.str u.name)) ∧
    respField (getUser (createUser s (some u) now newId).1 (oidHex newId)).body "email"
      = (if u.email = "" then none else some (.str u.email)) ∧
    respField (getUser (createUser s (some u) now newId).1 (oidHex newId)).body "age"
      = (if u.age = 0 then none else some (.intv u.age)) ∧
    respField (getUser (createUser s (some u) now newId).1 (oidHex newId)).body
        "created_at" = some (.str (formatRFC3339 (u.createdAt.getD now))) := by
  have hstate : (createUser s (some u) now newId).1
      = s ++ [(newId, userToDoc u now)] := rfl
  have hget : getUser (createUser s (some u) now newId).1 (oidHex newId)
      = ⟨200, .doc (buildUserResp newId (userToDoc u now)), 1⟩ := by
    rw [hstate]
    exact getUser_found _ _ newId _ (fromHex_oidHex newId hid)
      (findDoc_append_fresh s newId _ hfresh)
  rw [hget]
  refine ⟨rfl, rfl, rfl, ?_, ?_, ?_, ?_, ?_⟩
  · exact buildUserResp_id _ _
  · show lookupField (buildUserResp newId (userToDoc u now)) "name" = _
    rw [buildUserResp_name, nameField_lookup, userToDoc_name]
    by_cases hn : u.name = "" <;> simp [hn]
  · show lookupField (buildUserResp newId (userToDoc u now)) "email" = _
    rw [buildUserResp_email, emailField_lookup, userToDoc_email]
    by_cases he : u.email = "" <;> simp [he]
  · show lookupField (buildUserResp newId (userToDoc u now)) "age" = _
    rw [buildUserResp_age, ageField_lookup, userToDoc_age]
    by_cases ha : u.age = 0
    · simp [ha]
    · have he : encodeGoInt u.age = .i32 u.age := by
        unfold encodeGoInt
        rw [if_pos hage]
      rw [if_neg ha, he, if_neg ha]
  · show lookupField (buildUserResp newId (userToDoc u now)) "created_at" = _
    rw [buildUserResp_created, createdField_lookup, userToDoc_created]
    rfl

/-- Witness for `c1_roundtrip_amended`: the spec scenario
`POST {"name":"Ann","email":"a@x.com","age":31}` with `created_at`
defaulted to the insertion time. -/
theorem c1_roundtrip_amended_witness :
    findDoc ([] : Store) 0 = none ∧ (0 : Nat) < 16 ^ 24 ∧
    ((-2147483648 : Int) ≤ 31 ∧ (31 : Int) ≤ 2147483647) ∧
    ((createUser [] (some ⟨"Ann", "a@x.com", 31, none⟩) 1700000000000 0).2.status = 201 ∧
    (createUser [] (some ⟨"Ann", "a@x.com", 31, none⟩) 1700000000000 0).2.body
      = .doc [("id", .str (oidHex 0))] ∧
    (getUser (createUser [] (some ⟨"Ann", "a@x.com", 31, none⟩) 1700000000000 0).1
        (oidHex 0)).status = 200 ∧
    respField (getUser (createUser [] (some ⟨"Ann", "a@x.com", 31, none⟩)
        1700000000000 0).1 (oidHex 0)).body "id" = some (.str (oidHex 0)) ∧
    respField (getUser (createUser [] (some ⟨"Ann", "a@x.com", 31, none⟩)
        1700000000000 0).1 (oidHex 0)).body "name"
      = (if ("Ann" : String) = "" then none else some (.str "Ann")) ∧
    respField (getUser (createUser [] (some ⟨"Ann", "a@x.com", 31, none⟩)
        1700000000000 0).1 (oidHex 0)).body "email"
      = (if ("a@x.com" : String) = "" then none else some (.str "a@x.com")) ∧
    respField (getUser (createUser [] (some ⟨"Ann", "a@x.com", 31, none⟩)
        1700000000000 0).1 (oidHex 0)).body "age"
      = (if (31 : Int) = 0 then none else some (.intv 31)) ∧
    respField (getUser (createUser [] (some ⟨"Ann", "a@x.com", 31, none⟩)
        1700000000000 0).1 (oidHex 0)).body "created_at"
      = some (.str (formatRFC3339 ((none : Option Int).getD 1700000000000)))) :=
  ⟨rfl, by decide, ⟨by decide, by decide⟩,
    c1_roundtrip_amended _ _ 1700000000000 0 rfl (by decide) ⟨by decide, by decide⟩⟩

end MinGo
